import Mathlib

/-!
# Verification of the data-access layer of the Ippolito web front-end

Shallow embedding of the pure logic of `src/app/db.py`:

* the Python value model needed for the nullable `NUMDOC` / `Datdoc` columns
  (`NumVal`, `DateVal`) together with Python truthiness, `str`, `int` and
  `str.zfill`;
* the document-number formatter shared by `get_ordini_cliente` and
  `get_articoli_ordine` (`formatNumdoc`);
* the grouping loop of `get_ordini_cliente` and the per-row projection of
  `get_articoli_ordine`;
* the predicate/parameter construction, filtering, sorting and projection of
  `get_clients`, with the SQL `WHERE` clause and `ORDER BY` interpreted over a
  modelled `piacon` table (SQL `NULL` is `Option.none`; a predicate evaluating
  to `UNKNOWN` rejects the row; `LIKE` is modelled with the `%` and `_`
  wildcards);
* `_resolve_driver`, `_coerce_timeout` and the error-propagation shape of the
  five fetch operations (Python exceptions are modelled with `Except`).
-/

namespace Ippolito

/-! ## Python value model for the nullable order columns -/

/-- Model of the values the raw `NUMDOC` column can hold on the Python side:
`None`, an integer, or a string. -/
inductive NumVal where
  | none
  | int (n : Int)
  | str (s : String)
deriving DecidableEq

/-- Model of the values the `Datdoc` column can hold on the Python side:
`None`, a date object carrying a `year` attribute, or a string. -/
inductive DateVal where
  | none
  | date (year : Int)
  | str (s : String)
deriving DecidableEq

/-- Python truthiness of a `NumVal` (`None` and `0` and `""` are falsy). -/
def truthyNum : NumVal → Bool
  | NumVal.none => false
  | NumVal.int n => n != 0
  | NumVal.str s => s != ""

/-- Python truthiness of a `DateVal` (date objects are always truthy). -/
def truthyDate : DateVal → Bool
  | DateVal.none => false
  | DateVal.date _ => true
  | DateVal.str s => s != ""

/-- Python `str()` of a `NumVal`; `str(None) = "None"`. -/
def numValStr : NumVal → String
  | NumVal.none => "None"
  | NumVal.int n => toString n
  | NumVal.str s => s

/-- Value of a list of decimal digit characters. -/
def digitsToNat (cs : List Char) : Nat :=
  cs.foldl (fun a c => a * 10 + (c.toNat - '0'.toNat)) 0

/-- Python `str.strip()` restricted to ASCII whitespace: drop whitespace from
both ends. -/
def pyStrip (s : String) : String :=
  ⟨((s.data.dropWhile Char.isWhitespace).reverse.dropWhile Char.isWhitespace).reverse⟩

/-- Python `int(s)` on a string: optional surrounding whitespace, optional
sign, then a non-empty run of decimal digits; anything else raises
`ValueError`, modelled as `Option.none`. -/
def pyIntOfString (s : String) : Option Int :=
  match (pyStrip s).data with
  | [] => Option.none
  | '-' :: cs =>
      if cs ≠ [] ∧ cs.all Char.isDigit then Option.some (-(digitsToNat cs : Int))
      else Option.none
  | '+' :: cs =>
      if cs ≠ [] ∧ cs.all Char.isDigit then Option.some (digitsToNat cs : Int)
      else Option.none
  | cs =>
      if cs.all Char.isDigit then Option.some (digitsToNat cs : Int)
      else Option.none

/-- Python `int(value)` on a `NumVal`; a failing conversion (`ValueError`)
is `Option.none`.  (`int(None)` cannot be reached: the formatter guards
`numdoc_raw is not None` first.) -/
def pyIntOfNum : NumVal → Option Int
  | NumVal.none => Option.none
  | NumVal.int n => Option.some n
  | NumVal.str s => pyIntOfString s

/-- Python `str.zfill(width)`: left-pad with `'0'` up to `width`, keeping a
leading sign in front of the inserted zeros. -/
def pyZfill (width : Nat) (s : String) : String :=
  if width ≤ s.length then s
  else
    match s.data with
    | [] => ⟨List.replicate width '0'⟩
    | c :: cs =>
        if c = '-' ∨ c = '+' then ⟨c :: (List.replicate (width - s.length) '0' ++ cs)⟩
        else ⟨List.replicate (width - s.length) '0' ++ s.data⟩

/-- Python `s[-2:]`: the last two characters (the whole string if shorter). -/
def lastTwo (s : String) : String :=
  ⟨s.data.drop (s.data.length - 2)⟩

/-- The year-suffix computation of the formatter: `str(datdoc.year)[-2:]` for
a date object, `str(datdoc)[:4][-2:]` (or `"00"` for strings shorter than 4)
for a string date. Unreachable for `None` (guarded by truthiness). -/
def yearSuffix : DateVal → String
  | DateVal.none => ""
  | DateVal.date y => lastTwo (toString y)
  | DateVal.str s => if 4 ≤ s.length then ⟨(s.data.take 4).drop 2⟩ else "00"

/-- The fallback branch of the formatter:
`str(numdoc_raw) if numdoc_raw else ""`. -/
def numdocFallback (v : NumVal) : String :=
  if truthyNum v then numValStr v else ""

/-- The document-number formatter of `get_ordini_cliente` /
`get_articoli_ordine` (`src/app/db.py` lines 339–356 and 427–441): when the
date is truthy and the raw number is not `None`, format as two-digit year
suffix plus the int-converted raw number zero-filled to width 4; on a failing
`int` conversion, or when either input is missing, fall back to
`str(numdoc_raw) if numdoc_raw else ""`. -/
def formatNumdoc (datdoc : DateVal) (numdoc_raw : NumVal) : String :=
  if truthyDate datdoc ∧ numdoc_raw ≠ NumVal.none then
    match pyIntOfNum numdoc_raw with
    | Option.some n => yearSuffix datdoc ++ pyZfill 4 (toString n)
    | Option.none => numdocFallback numdoc_raw
  else
    numdocFallback numdoc_raw

/-! ## Order rows and the grouping loop of `get_ordini_cliente` -/

/-- One raw result row of the order query
(`NUMDOC, Datdoc, PraticaNumero, CODART, DESART`); the three text columns are
nullable (`Option.none` models SQL `NULL` / Python `None`). -/
structure OrderRow where
  numdoc_raw : NumVal
  datdoc : DateVal
  pratica : Option String
  codart : Option String
  desart : Option String
deriving DecidableEq

/-- The dictionary value built by `get_ordini_cliente` for each order group. -/
structure OrderSummary where
  numdoc : String
  numdoc_raw : NumVal
  datdoc : DateVal
  pratica_numero : String
  codart : String
  desart : String
  num_articoli : Nat
deriving DecidableEq

/-- Python `rec[i] if rec[i] else ""` on a nullable text column. -/
def coalesceText (o : Option String) : String := o.getD ""

/-- The entry created by `get_ordini_cliente` the first time a document
number is seen (`src/app/db.py` lines 361–371). -/
def mkSummary (r : OrderRow) : OrderSummary :=
  { numdoc := formatNumdoc r.datdoc r.numdoc_raw
    numdoc_raw := r.numdoc_raw
    datdoc := r.datdoc
    pratica_numero := coalesceText r.pratica
    codart := coalesceText r.codart
    desart := coalesceText r.desart
    num_articoli := 1 }

/-- Model of `orders_dict[key]["num_articoli"] += 1`. -/
def bumpCount (s : OrderSummary) : OrderSummary :=
  { s with num_articoli := s.num_articoli + 1 }

/-- Grouping key: `key = str(numdoc_raw)`. -/
def rowKey (r : OrderRow) : String := numValStr r.numdoc_raw

/-- The loop body of `get_ordini_cliente`: the insertion-ordered dictionary
`orders_dict` is modelled as an association list; an unseen key appends a new
entry, a seen key increments only its counter. -/
def insertRow (acc : List (String × OrderSummary)) (r : OrderRow) :
    List (String × OrderSummary) :=
  let key := rowKey r
  if key ∈ acc.map Prod.fst then
    acc.map (fun p => if p.1 = key then (p.1, bumpCount p.2) else p)
  else
    acc ++ [(key, mkSummary r)]

/-- Model of `get_ordini_cliente` (`src/app/db.py` lines 292–379), given the raw rows
the backend returns for `tipdoc = 'OC' AND codcf = ?` ordered by `Datdoc`
descending: group by `str(numdoc_raw)`, then take the dictionary values in
insertion order. -/
def get_ordini_cliente (rows : List OrderRow) : List OrderSummary :=
  (rows.foldl insertRow []).map Prod.snd

/-- One output row of `get_articoli_ordine`. -/
structure LineItem where
  numdoc : String
  numdoc_raw : NumVal
  datdoc : DateVal
  pratica_numero : String
  codart : String
  desart : String
deriving DecidableEq

/-- Model of `get_articoli_ordine` (`src/app/db.py` lines 386–456), given the raw rows
the backend returns for the selected document ordered by `PraticaNumero`: one
output row per input row, each formatted independently. -/
def get_articoli_ordine (rows : List OrderRow) : List LineItem :=
  rows.map (fun r =>
    { numdoc := formatNumdoc r.datdoc r.numdoc_raw
      numdoc_raw := r.numdoc_raw
      datdoc := r.datdoc
      pratica_numero := coalesceText r.pratica
      codart := coalesceText r.codart
      desart := coalesceText r.desart })

/-! ## `get_clients`: predicate construction, filtering, sorting, projection -/

/-- One row of the `piacon` table; `Option.none` models SQL `NULL`.
Only the columns the query reads are modelled. -/
structure PiaconRow where
  ragsoc : Option String
  denominazione : Option String
  citta : Option String
  partitaIVA : Option String
  codfisc : Option String
  codice : Option String
  rifconto : Option String
  disattivato : Option Int
deriving DecidableEq

/-- SQL `LIKE` pattern matching over characters, with the `%` (any run) and
`_` (any single character) wildcards; other characters match literally. -/
def likeMatch : List Char → List Char → Bool
  | [], s => s.isEmpty
  | '%' :: ps, s => s.tails.any (fun t => likeMatch ps t)
  | '_' :: ps, s =>
      match s with
      | [] => false
      | _ :: cs => likeMatch ps cs
  | p :: ps, s =>
      match s with
      | [] => false
      | c :: cs => p == c && likeMatch ps cs

/-- Predicate `value LIKE pattern` as a string predicate. -/
def sqlLike (pattern s : String) : Bool := likeMatch pattern.data s.data

/-- Predicate `column LIKE pattern` on a nullable column: `NULL LIKE p` is `UNKNOWN`,
which rejects the row. -/
def likeNullable (pattern : String) (o : Option String) : Bool :=
  match o with
  | Option.none => false
  | Option.some s => sqlLike pattern s

/-- Lexicographic strict order on character lists, by code point: the model
of the backend collation's string comparison. -/
def charListLt : List Char → List Char → Bool
  | [], [] => false
  | [], _ :: _ => true
  | _ :: _, [] => false
  | a :: as, b :: bs => a < b || (a = b && charListLt as bs)

/-- Comparison `a < b` on strings under the modelled collation. -/
def collLt (a b : String) : Bool := charListLt a.data b.data

/-- Comparison `a ≤ b` on strings under the modelled collation (total order:
`¬ b < a`). -/
def collLe (a b : String) : Bool := !(collLt b a)

/-- Predicate `piacon.Ragsoc > ' '` (`NULL` rejects the row). -/
def ragsocNotBlank (o : Option String) : Bool :=
  match o with
  | Option.none => false
  | Option.some s => collLt " " s

/-- Predicate `piacon.codice <> '0000'` (`NULL` rejects the row). -/
def codiceOk (o : Option String) : Bool :=
  match o with
  | Option.none => false
  | Option.some c => c != "0000"

/-- Predicate `ISNULL(piacon.disattivato, 0) = 0`. -/
def disattivatoOk (o : Option Int) : Bool := o.getD 0 == 0

/-- The `WHERE` clause built by `get_clients` (`src/app/db.py` lines
213–242), evaluated on one row. -/
def clientsWhere (mostra_disattivati : Bool) (rifconto_like pattern_like : String)
    (r : PiaconRow) : Bool :=
  ragsocNotBlank r.ragsoc &&
  codiceOk r.codice &&
  likeNullable rifconto_like r.rifconto &&
  (mostra_disattivati || disattivatoOk r.disattivato) &&
  (likeNullable pattern_like r.ragsoc ||
   likeNullable pattern_like r.denominazione ||
   likeNullable pattern_like r.citta ||
   likeNullable pattern_like r.partitaIVA ||
   likeNullable pattern_like r.codfisc)

/-- The `Rifconto` pattern built by `get_clients` (lines 185–190):
strip the filter; empty means the match-all `"%"`, otherwise append `%`. -/
def rifcontoLike (filtro_mastro : Option String) : String :=
  let filtro_val := pyStrip (filtro_mastro.getD "")
  if filtro_val = "" then "%" else filtro_val ++ "%"

/-- The search pattern built by `get_clients` (lines 192–199): strip the
text; empty means match-all, otherwise wildcards on both sides when
`match_anywhere`, else only on the right. -/
def patternLike (pattern_ricerca : Option String) (match_anywhere : Bool) : String :=
  let search_raw := pyStrip (pattern_ricerca.getD "")
  if search_raw = "" then "%"
  else if match_anywhere then "%" ++ search_raw ++ "%"
  else search_raw ++ "%"

/-- Projection `CONCAT(piacon.Ragsoc, ' ', piacon.denominazione)`; SQL `CONCAT` treats
`NULL` as the empty string, so the result is never `NULL`. -/
def displayRagsoc (r : PiaconRow) : String :=
  (r.ragsoc.getD "") ++ " " ++ (r.denominazione.getD "")

/-- One normalized client record returned by `get_clients`. -/
structure ClientOut where
  ragsoc : String
  citta : String
  rifconto : String
deriving DecidableEq

/-- The Python projection of one fetched row (lines 248–253); the `Ragsoc`
alias is never `NULL` (it contains the `' '` separator), so its truthiness
coalesce is the identity. -/
def clientOut (r : PiaconRow) : ClientOut :=
  { ragsoc := displayRagsoc r
    citta := coalesceText r.citta
    rifconto := coalesceText r.rifconto }

/-- Relation for `ORDER BY Ragsoc`: the select-list alias, i.e. the concatenated display
name, compared under the modelled collation. -/
def ragsocLe (a b : PiaconRow) : Prop :=
  collLe (displayRagsoc a) (displayRagsoc b) = true

instance : DecidableRel ragsocLe := fun a b =>
  inferInstanceAs (Decidable (collLe (displayRagsoc a) (displayRagsoc b) = true))

/-- Model of `get_clients` (`src/app/db.py` lines 150–259) over a modelled `piacon`
table: build the two `LIKE` patterns, keep the rows satisfying the `WHERE`
clause, sort ascending by the `Ragsoc` alias (a stable sort, modelling
`ORDER BY`), and project each row. -/
def get_clients (filtro_mastro : Option String) (mostra_disattivati : Bool)
    (pattern_ricerca : Option String) (match_anywhere : Bool)
    (piacon : List PiaconRow) : List ClientOut :=
  let rifconto_like := rifcontoLike filtro_mastro
  let pattern_like := patternLike pattern_ricerca match_anywhere
  (((piacon.filter
      (clientsWhere mostra_disattivati rifconto_like pattern_like)).insertionSort
      ragsocLe).map clientOut)

/-! ### The SQL text and bound parameters built by `get_clients` -/

def ragsoc_expr : String := "CONCAT(piacon.Ragsoc, ' ', piacon.denominazione) AS Ragsoc"

def citta_expr : String := "piacon.Citta"

def rifconto_expr : String := "piacon.Rifconto"

/-- The fixed first part of the query (line 213–221), whitespace
normalized. -/
def clients_base_query : String :=
  "SELECT " ++ ragsoc_expr ++ ", " ++ citta_expr ++ ", " ++ rifconto_expr ++
  " FROM piacon" ++
  " LEFT JOIN bancheapp ON piacon.banca = bancheapp.codice" ++
  " LEFT JOIN PAGAMENTI ON piacon.PAGAMENTO = PAGAMENTI.Codice" ++
  " WHERE piacon.Ragsoc > ' '" ++
  " AND piacon.codice <> '0000'" ++
  " AND piacon.Rifconto LIKE ?"

def disattivato_clause : String := " AND ISNULL(piacon.disattivato, 0) = 0"

def search_clause : String :=
  " AND ( piacon.Ragsoc LIKE ? OR piacon.denominazione LIKE ? OR piacon.citta LIKE ?" ++
  " OR piacon.partitaIVA LIKE ? OR piacon.codfisc LIKE ? )"

def order_clause : String := " ORDER BY Ragsoc"

/-- The query text and parameter list `get_clients` hands to
`cursor.execute` (lines 213–247): the text varies only with
`mostra_disattivati`; the two `LIKE` values travel in the parameter list
(the search pattern five times, once per searchable column). -/
def get_clients_query (filtro_mastro : Option String) (mostra_disattivati : Bool)
    (pattern_ricerca : Option String) (match_anywhere : Bool) :
    String × List String :=
  let rifconto_like := rifcontoLike filtro_mastro
  let pattern_like := patternLike pattern_ricerca match_anywhere
  (clients_base_query ++
     (if mostra_disattivati then "" else disattivato_clause) ++
     search_clause ++ order_clause,
   rifconto_like :: List.replicate 5 pattern_like)

/-! ## Driver resolution and timeout coercion -/

def PREFERRED_DRIVERS : List String :=
  ["ODBC Driver 18 for SQL Server", "ODBC Driver 17 for SQL Server", "SQL Server"]

/-- Model of `_sanitize_driver_name`: strip surrounding whitespace. -/
def sanitizeDriverName (name : String) : String := pyStrip name

/-- The sanitized configured driver name used by `_resolve_driver`
(`configured = _sanitize_driver_name(Config.DB_DRIVER) if Config.DB_DRIVER
else ""`): the empty string when the configuration is unset or empty. -/
def configuredDriver (db_driver : Option String) : String :=
  match db_driver with
  | Option.none => ""
  | Option.some s => if s = "" then "" else sanitizeDriverName s

/-- Model of `_resolve_driver` (`src/app/db.py` lines 31–49): sanitize the configured
name (empty or unset configuration counts as no configured name), return it
when installed; otherwise the first installed entry of `PREFERRED_DRIVERS`;
otherwise the `RuntimeError` message. -/
def resolveDriver (db_driver : Option String) (drivers : List String) :
    Except String String :=
  let configured : String := configuredDriver db_driver
  let available := drivers.map sanitizeDriverName
  if configured ≠ "" ∧ configured ∈ available then
    Except.ok configured
  else
    match PREFERRED_DRIVERS.find? (fun c => decide (c ∈ available)) with
    | Option.some c => Except.ok c
    | Option.none =>
        Except.error
          "Nessun driver ODBC per SQL Server trovato. Installa ODBC Driver 18 o 17 per SQL Server."

/-- The Python value domain relevant to `_coerce_timeout`: `None`, an
integer, a string, or some other object on which `int()` raises
`TypeError`. -/
inductive PyScalar where
  | none
  | int (n : Int)
  | str (s : String)
  | obj
deriving DecidableEq

inductive PyIntErr where
  | typeErr
  | valueErr
deriving DecidableEq

/-- Python `int(value)` on a `PyScalar`: identity on integers, parse for
strings (`ValueError` on failure), `TypeError` on `None` and other
objects. -/
def pyIntConv : PyScalar → Except PyIntErr Int
  | PyScalar.none => Except.error PyIntErr.typeErr
  | PyScalar.int n => Except.ok n
  | PyScalar.str s =>
      match pyIntOfString s with
      | Option.some n => Except.ok n
      | Option.none => Except.error PyIntErr.valueErr
  | PyScalar.obj => Except.error PyIntErr.typeErr

/-- Model of `_coerce_timeout` (`src/app/db.py` lines 75–81): `None` yields the
fallback, otherwise `int(value)`, and both `TypeError` and `ValueError`
yield the fallback. -/
def coerce_timeout (value : PyScalar) (fallback : Int) : Int :=
  match value with
  | PyScalar.none => fallback
  | v =>
      match pyIntConv v with
      | Except.ok n => n
      | Except.error _ => fallback

/-- The timeout `get_connection` applies (line 87):
`_coerce_timeout(timeout, _coerce_timeout(Config.DB_LOGIN_TIMEOUT))`, with
`_coerce_timeout`'s default fallback `5`. -/
def connectionTimeoutValue (timeout db_login_timeout : PyScalar) : Int :=
  coerce_timeout timeout (coerce_timeout db_login_timeout 5)

/-! ## Error propagation of the five fetch operations

Python exceptions are modelled with `Except String`: the backend either
produces its rows or raises.  Each operation below mirrors its
`try`/`except pyodbc.Error` block: four of them log and re-raise, while
`get_cliente_nome` logs and returns `None`. -/

/-- Model of `get_clients` around its backend call: the `except` block re-raises. -/
def get_clients_op (filtro_mastro : Option String) (mostra_disattivati : Bool)
    (pattern_ricerca : Option String) (match_anywhere : Bool)
    (backend : Except String (List PiaconRow)) : Except String (List ClientOut) :=
  match backend with
  | Except.error e => Except.error e
  | Except.ok piacon =>
      Except.ok (get_clients filtro_mastro mostra_disattivati pattern_ricerca
        match_anywhere piacon)

/-- Model of `get_ordini_cliente` around its backend call: the `except` block
re-raises. -/
def get_ordini_cliente_op (backend : Except String (List OrderRow)) :
    Except String (List OrderSummary) :=
  match backend with
  | Except.error e => Except.error e
  | Except.ok rows => Except.ok (get_ordini_cliente rows)

/-- Model of `get_articoli_ordine` around its backend call: the `except` block
re-raises. -/
def get_articoli_ordine_op (backend : Except String (List OrderRow)) :
    Except String (List LineItem) :=
  match backend with
  | Except.error e => Except.error e
  | Except.ok rows => Except.ok (get_articoli_ordine rows)

/-- Model of `fetch_user_by_username` (`src/app/db.py` lines 116–147): `None` when no
row is found, else `dict(zip(columns, row))`; the `except` block
re-raises. -/
def fetch_user_by_username_op
    (backend : Except String (Option (List String × List String))) :
    Except String (Option (List (String × String))) :=
  match backend with
  | Except.error e => Except.error e
  | Except.ok Option.none => Except.ok Option.none
  | Except.ok (Option.some (cols, row)) => Except.ok (Option.some (cols.zip row))

/-- Model of `get_cliente_nome` (`src/app/db.py` lines 262–289): `row[0] if row else
None`; its `except pyodbc.Error` block returns `None` instead of
re-raising. -/
def get_cliente_nome_op (backend : Except String (Option String)) : Option String :=
  match backend with
  | Except.error _ => Option.none
  | Except.ok r => r

/-! ## Specification-side definitions

These follow the wording of the specification (not the code); the theorems
below compare the embedded code against them. -/

/-- Spec wording: "the raw number zero-padded to width 4". -/
def specPad4 (s : String) : String :=
  ⟨List.replicate (4 - s.length) '0' ++ s.data⟩

/-- Spec wording: "the raw number's plain string form, with the empty string
when the raw number is absent", amended to also yield the empty string for
a falsy raw number (integer `0`; an empty string is its own plain form). -/
def plainStrOrEmpty (r : NumVal) : String :=
  match r with
  | NumVal.none => ""
  | NumVal.int n => if n = 0 then "" else toString n
  | NumVal.str s => s

/-- The key of an `OrderSummary`, for stating the grouping properties. -/
def summaryKey (s : OrderSummary) : String := numValStr s.numdoc_raw

/-- Number of raw rows carrying a given grouping key. -/
def keyCount (k : String) (rows : List OrderRow) : Nat :=
  (rows.filter (fun r => rowKey r == k)).length

/-- Spec wording: "insertion order of first-seen groups" — the keys of a
scan in order of first appearance, skipping keys already seen. -/
def firstSeen (seen : List String) : List String → List String
  | [] => []
  | k :: ks => if k ∈ seen then firstSeen seen ks else k :: firstSeen (k :: seen) ks

/-- Spec wording for an active client: the inactive flag is null-or-zero. -/
def activeClient (r : PiaconRow) : Prop :=
  r.disattivato = Option.none ∨ r.disattivato = Option.some 0

/-- The baseline conditions of the client query's `WHERE` clause, stated
declaratively: a non-null display-name field greater than `' '`, a non-null
code different from the `'0000'` sentinel, and a non-null account
reference. -/
def selectableClient (r : PiaconRow) : Prop :=
  (∃ s, r.ragsoc = Option.some s ∧ collLt " " s = true) ∧
  (∃ c, r.codice = Option.some c ∧ c ≠ "0000") ∧
  r.rifconto ≠ Option.none

/-! ## Decimal representations are sign-free digit strings -/

lemma digitChar_isDigit {k : Nat} (h : k < 10) : (Nat.digitChar k).isDigit = true := by
  interval_cases k <;> decide

lemma toDigitsCore_digits :
    ∀ (fuel n : Nat) (ds : List Char), (∀ c ∈ ds, c.isDigit = true) →
      ∀ c ∈ Nat.toDigitsCore 10 fuel n ds, c.isDigit = true
  | 0, n, ds, h => by
      intro c hc
      exact h c hc
  | fuel + 1, n, ds, h => by
      intro c hc
      have hmem : ∀ c ∈ (Nat.digitChar (n % 10) :: ds), c.isDigit = true := by
        intro c hc
        rcases List.mem_cons.mp hc with rfl | hc
        · exact digitChar_isDigit (Nat.mod_lt _ (by omega))
        · exact h c hc
      have hstep : Nat.toDigitsCore 10 (fuel + 1) n ds =
          if n / 10 = 0 then Nat.digitChar (n % 10) :: ds
          else Nat.toDigitsCore 10 fuel (n / 10) (Nat.digitChar (n % 10) :: ds) := rfl
      rw [hstep] at hc
      by_cases h0 : n / 10 = 0
      · rw [if_pos h0] at hc
        exact hmem c hc
      · rw [if_neg h0] at hc
        exact toDigitsCore_digits fuel (n / 10) _ hmem c hc

lemma toDigitsCore_ne_nil :
    ∀ (fuel n : Nat) (ds : List Char), ds ≠ [] → Nat.toDigitsCore 10 fuel n ds ≠ []
  | 0, _, _, h => h
  | fuel + 1, n, ds, _ => by
      have hstep : Nat.toDigitsCore 10 (fuel + 1) n ds =
          if n / 10 = 0 then Nat.digitChar (n % 10) :: ds
          else Nat.toDigitsCore 10 fuel (n / 10) (Nat.digitChar (n % 10) :: ds) := rfl
      rw [hstep]
      by_cases h0 : n / 10 = 0
      · rw [if_pos h0]
        exact List.cons_ne_nil _ _
      · rw [if_neg h0]
        exact toDigitsCore_ne_nil fuel (n / 10) _ (List.cons_ne_nil _ _)

lemma natRepr_digits (m : Nat) : ∀ c ∈ (Nat.repr m).data, c.isDigit = true := by
  intro c hc
  have hrepr : (Nat.repr m).data = Nat.toDigitsCore 10 (m + 1) m [] := rfl
  rw [hrepr] at hc
  exact toDigitsCore_digits (m + 1) m [] (by intro c hc; cases hc) c hc

lemma natRepr_ne_nil (m : Nat) : (Nat.repr m).data ≠ [] := by
  have hrepr : (Nat.repr m).data =
      if m / 10 = 0 then [Nat.digitChar (m % 10)]
      else Nat.toDigitsCore 10 m (m / 10) [Nat.digitChar (m % 10)] := rfl
  rw [hrepr]
  by_cases h0 : m / 10 = 0
  · rw [if_pos h0]
    exact List.cons_ne_nil _ _
  · rw [if_neg h0]
    exact toDigitsCore_ne_nil m (m / 10) _ (List.cons_ne_nil _ _)

lemma isDigit_ne_dash {c : Char} (h : c.isDigit = true) : ¬(c = '-' ∨ c = '+') := by
  rintro (rfl | rfl) <;> exact absurd h (by decide)

lemma intRepr_nonneg_digits (n : Int) (h : 0 ≤ n) :
    (toString n).data ≠ [] ∧ ∀ c ∈ (toString n).data, c.isDigit = true := by
  obtain ⟨m, rfl⟩ := Int.eq_ofNat_of_zero_le h
  exact ⟨natRepr_ne_nil m, natRepr_digits m⟩

lemma pyZfill_eq_specPad4 (s : String) (hne : s.data ≠ [])
    (hd : ∀ c ∈ s.data, c.isDigit = true) : pyZfill 4 s = specPad4 s := by
  cases s with
  | mk d =>
    cases d with
    | nil => exact absurd rfl hne
    | cons c cs =>
      have hsign := isDigit_ne_dash (hd c (List.mem_cons_self c cs))
      by_cases hlen : 4 ≤ (String.mk (c :: cs)).length
      · have hlen' : 3 ≤ cs.length := by simpa using hlen
        have h0 : 3 - cs.length = 0 := Nat.sub_eq_zero_of_le hlen'
        simp [pyZfill, specPad4, hlen', h0]
      · simp only [pyZfill, specPad4, if_neg hlen]
        rw [if_neg hsign]

/-! ## Formatter case lemmas -/

lemma numdocFallback_eq_plain (r : NumVal) : numdocFallback r = plainStrOrEmpty r := by
  cases r with
  | none => rfl
  | int n =>
      by_cases h : n = 0 <;>
        simp [numdocFallback, truthyNum, plainStrOrEmpty, numValStr, h]
  | str s =>
      by_cases h : s = "" <;>
        simp [numdocFallback, truthyNum, plainStrOrEmpty, numValStr, h]

lemma formatNumdoc_guard_pos (d : DateVal) (r : NumVal) (n : Int)
    (hd : truthyDate d = true) (hr : r ≠ NumVal.none)
    (hp : pyIntOfNum r = Option.some n) :
    formatNumdoc d r = yearSuffix d ++ pyZfill 4 (toString n) := by
  unfold formatNumdoc
  rw [if_pos ⟨hd, hr⟩, hp]

lemma formatNumdoc_guard_fail (d : DateVal) (s : String)
    (hp : pyIntOfString s = Option.none) :
    formatNumdoc d (NumVal.str s) = numdocFallback (NumVal.str s) := by
  unfold formatNumdoc
  by_cases hg : truthyDate d = true ∧ NumVal.str s ≠ NumVal.none
  · rw [if_pos hg]
    have hps : pyIntOfNum (NumVal.str s) = Option.none := hp
    rw [hps]
  · rw [if_neg hg]

lemma formatNumdoc_no_date (d : DateVal) (r : NumVal) (hd : truthyDate d = false) :
    formatNumdoc d r = numdocFallback r := by
  unfold formatNumdoc
  rw [if_neg (fun h => by rw [hd] at h; exact Bool.false_ne_true h.1)]

lemma formatNumdoc_no_raw (d : DateVal) : formatNumdoc d NumVal.none = "" := by
  unfold formatNumdoc
  rw [if_neg (fun h => h.2 rfl)]
  rfl

/-- C1, corrected claim.  The document-number formatter used by
`get_ordini_cliente` and `get_articoli_ordine`: with a truthy date object
and a raw number that is not `None` and whose `int` conversion succeeds
with a non-negative value, it returns the last two characters of the year's
string form followed by the value zero-padded to width 4; on a failing
conversion, or when the date is absent/falsy, or when the raw number is
`None`, it returns the raw number's plain string form — except that a falsy
raw number (`None`, `0`, or the empty string) yields the empty string. -/
theorem C1_format_amended :
    (∀ (y n : Int) (r : NumVal), 0 ≤ n → r ≠ NumVal.none →
        pyIntOfNum r = Option.some n →
        formatNumdoc (DateVal.date y) r = lastTwo (toString y) ++ specPad4 (toString n))
    ∧ (∀ (d : DateVal) (s : String), truthyDate d = true →
        pyIntOfString s = Option.none →
        formatNumdoc d (NumVal.str s) = plainStrOrEmpty (NumVal.str s))
    ∧ (∀ (d : DateVal) (r : NumVal), truthyDate d = false →
        formatNumdoc d r = plainStrOrEmpty r)
    ∧ (∀ d : DateVal, formatNumdoc d NumVal.none = "") := by
  refine ⟨?_, ?_, ?_, ?_⟩
  · intro y n r hn hr hp
    rw [formatNumdoc_guard_pos (DateVal.date y) r n rfl hr hp]
    obtain ⟨hne, hd⟩ := intRepr_nonneg_digits n hn
    rw [pyZfill_eq_specPad4 _ hne hd]
    rfl
  · intro d s hd hp
    rw [formatNumdoc_guard_fail d s hp, numdocFallback_eq_plain]
  · intro d r hd
    rw [formatNumdoc_no_date d r hd, numdocFallback_eq_plain]
  · intro d
    exact formatNumdoc_no_raw d

/-- C1, counterexample to the claim as stated: with a null date and the
present (non-null) raw number `0`, the formatter returns the empty string,
not the raw number's plain string form `"0"`. -/
theorem C1_format_counterexample :
    formatNumdoc DateVal.none (NumVal.int 0) = "" ∧
    numValStr (NumVal.int 0) = "0" ∧
    formatNumdoc DateVal.none (NumVal.int 0) ≠ numValStr (NumVal.int 0) := by
  decide

/-- C1 witness: the amended theorem applied at the spec's own examples. -/
theorem C1_format_amended_witness :
    formatNumdoc (DateVal.date 2024) (NumVal.int 441) = "240441" ∧
    formatNumdoc (DateVal.date 1999) (NumVal.int 7) = "990007" ∧
    formatNumdoc DateVal.none (NumVal.int 441) = "441" := by
  refine ⟨?_, ?_, ?_⟩
  · exact (C1_format_amended.1 2024 441 (NumVal.int 441) (by decide) (by decide)
      (by decide)).trans (by decide)
  · exact (C1_format_amended.1 1999 7 (NumVal.int 7) (by decide) (by decide)
      (by decide)).trans (by decide)
  · exact (C1_format_amended.2.2.1 DateVal.none (NumVal.int 441) (by decide)).trans
      (by decide)

/-! ## Grouping lemmas for `get_ordini_cliente` -/

lemma summaryKey_bump (s : OrderSummary) : summaryKey (bumpCount s) = summaryKey s := rfl

lemma summaryKey_mk (r : OrderRow) : summaryKey (mkSummary r) = rowKey r := rfl

lemma bump_update (s : OrderSummary) (a : Nat) :
    ({ bumpCount s with num_articoli := a } : OrderSummary) =
      { s with num_articoli := a } := by
  cases s
  rfl

lemma update_self (s : OrderSummary) :
    ({ s with num_articoli := s.num_articoli } : OrderSummary) = s := by
  cases s
  rfl

lemma update_congr (s : OrderSummary) {a b : Nat} (h : a = b) :
    ({ s with num_articoli := a } : OrderSummary) = { s with num_articoli := b } := by
  rw [h]

lemma keyCount_nil (k : String) : keyCount k [] = 0 := rfl

lemma keyCount_cons_pos {k : String} {r : OrderRow} (rest : List OrderRow)
    (h : (rowKey r == k) = true) : keyCount k (r :: rest) = keyCount k rest + 1 := by
  simp [keyCount, List.filter_cons, h]

lemma keyCount_cons_neg {k : String} {r : OrderRow} (rest : List OrderRow)
    (h : (rowKey r == k) = false) : keyCount k (r :: rest) = keyCount k rest := by
  simp [keyCount, List.filter_cons, h]

lemma insertRow_of_mem {acc : List (String × OrderSummary)} {r : OrderRow}
    (h : rowKey r ∈ acc.map Prod.fst) :
    insertRow acc r =
      acc.map (fun p => if p.1 = rowKey r then (p.1, bumpCount p.2) else p) := by
  simp [insertRow, h]

lemma insertRow_of_not_mem {acc : List (String × OrderSummary)} {r : OrderRow}
    (h : rowKey r ∉ acc.map Prod.fst) :
    insertRow acc r = acc ++ [(rowKey r, mkSummary r)] := by
  simp [insertRow, h]

lemma map_fst_bumpAt (acc : List (String × OrderSummary)) (k : String) :
    (acc.map (fun p => if p.1 = k then (p.1, bumpCount p.2) else p)).map Prod.fst
      = acc.map Prod.fst := by
  rw [List.map_map]
  apply List.map_congr_left
  intro p _
  by_cases hp : p.1 = k <;> simp [hp]

lemma foldl_keys_nodup :
    ∀ (rows : List OrderRow) (acc : List (String × OrderSummary)),
      (acc.map Prod.fst).Nodup → ((rows.foldl insertRow acc).map Prod.fst).Nodup
  | [], _, h => h
  | r :: rest, acc, h => by
      rw [List.foldl_cons]
      apply foldl_keys_nodup rest
      by_cases hm : rowKey r ∈ acc.map Prod.fst
      · rw [insertRow_of_mem hm, map_fst_bumpAt]
        exact h
      · rw [insertRow_of_not_mem hm, List.map_append]
        refine List.nodup_append.mpr ⟨h, by simp, ?_⟩
        simpa [List.disjoint_singleton] using hm

lemma foldl_entry_key :
    ∀ (rows : List OrderRow) (acc : List (String × OrderSummary)),
      (∀ p ∈ acc, p.1 = summaryKey p.2) →
      ∀ p ∈ rows.foldl insertRow acc, p.1 = summaryKey p.2
  | [], _, h => h
  | r :: rest, acc, h => by
      rw [List.foldl_cons]
      apply foldl_entry_key rest
      intro p hp
      by_cases hm : rowKey r ∈ acc.map Prod.fst
      · rw [insertRow_of_mem hm] at hp
        obtain ⟨q, hq, rfl⟩ := List.mem_map.mp hp
        by_cases hqk : q.1 = rowKey r
        · rw [if_pos hqk]
          show q.1 = summaryKey (bumpCount q.2)
          rw [summaryKey_bump]
          exact h q hq
        · rw [if_neg hqk]
          exact h q hq
      · rw [insertRow_of_not_mem hm] at hp
        rcases List.mem_append.mp hp with hp | hp
        · exact h p hp
        · have hp' : p = (rowKey r, mkSummary r) := by simpa using hp
          subst hp'
          exact (summaryKey_mk r).symm

lemma foldl_entry_nullFmt :
    ∀ (rows : List OrderRow) (acc : List (String × OrderSummary)),
      (∀ p ∈ acc, p.2.numdoc_raw = NumVal.none → p.2.numdoc = "") →
      ∀ p ∈ rows.foldl insertRow acc, p.2.numdoc_raw = NumVal.none → p.2.numdoc = ""
  | [], _, h => h
  | r :: rest, acc, h => by
      rw [List.foldl_cons]
      apply foldl_entry_nullFmt rest
      intro p hp
      by_cases hm : rowKey r ∈ acc.map Prod.fst
      · rw [insertRow_of_mem hm] at hp
        obtain ⟨q, hq, rfl⟩ := List.mem_map.mp hp
        by_cases hqk : q.1 = rowKey r
        · rw [if_pos hqk]
          intro hnull
          exact h q hq hnull
        · rw [if_neg hqk]
          exact h q hq
      · rw [insertRow_of_not_mem hm] at hp
        rcases List.mem_append.mp hp with hp | hp
        · exact h p hp
        · have hp' : p = (rowKey r, mkSummary r) := by simpa using hp
          subst hp'
          intro hnull
          show formatNumdoc r.datdoc r.numdoc_raw = ""
          have hraw : r.numdoc_raw = NumVal.none := hnull
          rw [hraw]
          exact formatNumdoc_no_raw r.datdoc

lemma filter_eq_find_toList :
    ∀ (acc : List (String × OrderSummary)) (k : String),
      (acc.map Prod.fst).Nodup →
      acc.filter (fun p => p.1 == k) = (acc.find? (fun p => p.1 == k)).toList
  | [], _, _ => rfl
  | p :: acc, k, h => by
      have hnd : (acc.map Prod.fst).Nodup := by
        rw [List.map_cons, List.nodup_cons] at h
        exact h.2
      by_cases hp : (p.1 == k) = true
      · have hfil : List.filter (fun q => q.1 == k) (p :: acc) =
            p :: List.filter (fun q => q.1 == k) acc := by
          simp [List.filter_cons, hp]
        have hfind : List.find? (fun q => q.1 == k) (p :: acc) = Option.some p := by
          simp [List.find?_cons, hp]
        rw [hfil, hfind]
        have hnot : p.1 ∉ acc.map Prod.fst := by
          rw [List.map_cons, List.nodup_cons] at h
          exact h.1
        have hnil : acc.filter (fun q => q.1 == k) = [] := by
          refine List.filter_eq_nil_iff.mpr ?_
          intro q hq hbeq
          apply hnot
          have hqk : q.1 = k := by simpa using hbeq
          have hpk : p.1 = k := by simpa using hp
          rw [hpk, ← hqk]
          exact List.mem_map.mpr ⟨q, hq, rfl⟩
        rw [hnil]
        rfl
      · have hp' : (p.1 == k) = false := by
          simpa using hp
        have hfil : List.filter (fun q => q.1 == k) (p :: acc) =
            List.filter (fun q => q.1 == k) acc := by
          simp [List.filter_cons, hp']
        have hfind : List.find? (fun q => q.1 == k) (p :: acc) =
            List.find? (fun q => q.1 == k) acc := by
          simp [List.find?_cons, hp']
        rw [hfil, hfind]
        exact filter_eq_find_toList acc k hnd

lemma foldl_filter_key :
    ∀ (rows : List OrderRow) (acc : List (String × OrderSummary)) (k : String),
      (acc.map Prod.fst).Nodup →
      (rows.foldl insertRow acc).filter (fun q => q.1 == k) =
        (match acc.find? (fun q => q.1 == k) with
         | Option.some p =>
             [(p.1, { p.2 with num_articoli := p.2.num_articoli + keyCount k rows })]
         | Option.none =>
             match rows.find? (fun r => rowKey r == k) with
             | Option.some r0 =>
                 [(k, { mkSummary r0 with num_articoli := keyCount k rows })]
             | Option.none => [])
  | [], acc, k, h => by
      rw [List.foldl_nil, filter_eq_find_toList acc k h]
      cases hf : acc.find? (fun q => q.1 == k) with
      | none => rfl
      | some p =>
          show [p] = [(p.1, { p.2 with num_articoli := p.2.num_articoli + keyCount k [] })]
          rw [keyCount_nil, Nat.add_zero, update_self]
  | r :: rest, acc, k, h => by
      rw [List.foldl_cons]
      by_cases hm : rowKey r ∈ acc.map Prod.fst
      · have hacc' : ((insertRow acc r).map Prod.fst).Nodup := by
          rw [insertRow_of_mem hm, map_fst_bumpAt]
          exact h
        rw [foldl_filter_key rest (insertRow acc r) k hacc', insertRow_of_mem hm,
          List.find?_map]
        have hcomp : ((fun q : String × OrderSummary => q.1 == k) ∘
            (fun q => if q.1 = rowKey r then (q.1, bumpCount q.2) else q))
            = fun q => q.1 == k := by
          funext q
          by_cases hq : q.1 = rowKey r <;> simp [hq]
        rw [hcomp]
        cases hf : acc.find? (fun q => q.1 == k) with
        | some p =>
            have hpk : p.1 = k := by simpa using List.find?_some hf
            rw [Option.map_some']
            by_cases hkr : (rowKey r == k) = true
            · have hkeq : rowKey r = k := by simpa using hkr
              have hif : (if p.1 = rowKey r then (p.1, bumpCount p.2) else p)
                  = (p.1, bumpCount p.2) := if_pos (by rw [hpk, hkeq])
              rw [hif]
              show [(p.1, { bumpCount p.2 with
                  num_articoli := (bumpCount p.2).num_articoli + keyCount k rest })]
                = [(p.1, { p.2 with
                  num_articoli := p.2.num_articoli + keyCount k (r :: rest) })]
              rw [bump_update, keyCount_cons_pos rest hkr]
              have hc : (bumpCount p.2).num_articoli + keyCount k rest
                  = p.2.num_articoli + (keyCount k rest + 1) := by
                show p.2.num_articoli + 1 + keyCount k rest = _
                omega
              rw [update_congr _ hc]
            · have hkr' : (rowKey r == k) = false := by simpa using hkr
              have hne : p.1 ≠ rowKey r := by
                rw [hpk]
                intro hh
                rw [hh] at hkr
                exact hkr (by simp)
              rw [if_neg hne]
              show [(p.1, { p.2 with
                  num_articoli := p.2.num_articoli + keyCount k rest })]
                = [(p.1, { p.2 with
                  num_articoli := p.2.num_articoli + keyCount k (r :: rest) })]
              rw [keyCount_cons_neg rest hkr']
        | none =>
            rw [Option.map_none']
            have hknot := List.find?_eq_none.mp hf
            have hkr' : (rowKey r == k) = false := by
              by_contra hcon
              have htrue : (rowKey r == k) = true := by simpa using hcon
              obtain ⟨q, hq, hq1⟩ := List.mem_map.mp hm
              exact hknot q hq (by rw [hq1]; exact htrue)
            have hfind2 : List.find? (fun r => rowKey r == k) (r :: rest)
                = List.find? (fun r => rowKey r == k) rest := by
              simp [List.find?_cons, hkr']
            rw [hfind2, keyCount_cons_neg rest hkr']
      · have hacc' : (((acc ++ [(rowKey r, mkSummary r)]).map Prod.fst)).Nodup := by
          rw [List.map_append]
          refine List.nodup_append.mpr ⟨h, by simp, ?_⟩
          simpa [List.disjoint_singleton] using hm
        rw [insertRow_of_not_mem hm, foldl_filter_key rest _ k hacc', List.find?_append]
        by_cases hkr : (rowKey r == k) = true
        · have hkeq : rowKey r = k := by simpa using hkr
          have hfnone : acc.find? (fun q => q.1 == k) = Option.none := by
            refine List.find?_eq_none.mpr ?_
            intro q hq hbeq
            apply hm
            rw [hkeq]
            exact List.mem_map.mpr ⟨q, hq, by simpa using hbeq⟩
          rw [hfnone, Option.none_or]
          have hfind1 : List.find? (fun q => q.1 == k) [(rowKey r, mkSummary r)]
              = Option.some (rowKey r, mkSummary r) := by
            simp [List.find?_cons, hkr]
          rw [hfind1]
          have hfind2 : List.find? (fun r => rowKey r == k) (r :: rest)
              = Option.some r := by
            simp [List.find?_cons, hkr]
          rw [hfind2, keyCount_cons_pos rest hkr]
          show [(rowKey r, { mkSummary r with
              num_articoli := (mkSummary r).num_articoli + keyCount k rest })]
            = [(k, { mkSummary r with num_articoli := keyCount k rest + 1 })]
          rw [hkeq]
          have hc : (mkSummary r).num_articoli + keyCount k rest = keyCount k rest + 1 := by
            show 1 + keyCount k rest = keyCount k rest + 1
            omega
          rw [update_congr _ hc]
        · have hkr' : (rowKey r == k) = false := by simpa using hkr
          have hfind1 : List.find? (fun q => q.1 == k) [(rowKey r, mkSummary r)]
              = Option.none := by
            simp [List.find?_cons, hkr']
          rw [hfind1, Option.or_none]
          have hfind2 : List.find? (fun r => rowKey r == k) (r :: rest)
              = List.find? (fun r => rowKey r == k) rest := by
            simp [List.find?_cons, hkr']
          rw [hfind2, keyCount_cons_neg rest hkr']

lemma get_ordini_filter (rows : List OrderRow) (k : String) :
    (get_ordini_cliente rows).filter (fun s => summaryKey s == k) =
      (match rows.find? (fun r => rowKey r == k) with
       | Option.some r0 => [{ mkSummary r0 with num_articoli := keyCount k rows }]
       | Option.none => []) := by
  unfold get_ordini_cliente
  rw [List.filter_map]
  have hentry := foldl_entry_key rows [] (by intro p hp; cases hp)
  have hcong : List.filter ((fun s => summaryKey s == k) ∘ Prod.snd)
      (rows.foldl insertRow []) =
      List.filter (fun q => q.1 == k) (rows.foldl insertRow []) := by
    apply List.filter_congr
    intro q hq
    show (summaryKey q.2 == k) = (q.1 == k)
    rw [hentry q hq]
  rw [hcong, foldl_filter_key rows [] k (by simp)]
  cases hf : rows.find? (fun r => rowKey r == k) with
  | some r0 => simp
  | none => simp

/-- C2.  `get_ordini_cliente` grouping: for every key (the Python string
form of the raw document number), the returned list contains exactly one
`OrderSummary` when some input row carries that key, and none otherwise;
that summary's `num_articoli` is the number of input rows carrying the key,
and every other field is taken from the first row scanned for the key. -/
theorem C2_grouping (rows : List OrderRow) (k : String) :
    (∀ r0, rows.find? (fun r => rowKey r == k) = Option.some r0 →
      (get_ordini_cliente rows).filter (fun s => summaryKey s == k) =
        [{ mkSummary r0 with num_articoli := keyCount k rows }])
    ∧ (rows.find? (fun r => rowKey r == k) = Option.none →
      (get_ordini_cliente rows).filter (fun s => summaryKey s == k) = []) := by
  constructor
  · intro r0 hfind
    rw [get_ordini_filter rows k, hfind]
  · intro hfind
    rw [get_ordini_filter rows k, hfind]

/-- C2 witness: the spec's fixture — three rows for document `441` and two
for `442`, scanned date-descending — yields for key `"441"` exactly one
summary, with `num_articoli = 3` and the other fields from the first
scanned `441` row. -/
theorem C2_grouping_witness :
    (get_ordini_cliente
        [⟨NumVal.int 441, DateVal.date 2024, Option.some "P1", Option.some "A1",
            Option.some "D1"⟩,
         ⟨NumVal.int 441, DateVal.date 2024, Option.some "P2", Option.none, Option.none⟩,
         ⟨NumVal.int 442, DateVal.date 2023, Option.some "Q1", Option.none, Option.none⟩,
         ⟨NumVal.int 441, DateVal.date 2024, Option.some "P3", Option.none, Option.none⟩,
         ⟨NumVal.int 442, DateVal.date 2023, Option.some "Q2", Option.none, Option.none⟩]).filter
      (fun s => summaryKey s == "441")
      = [{ numdoc := "240441", numdoc_raw := NumVal.int 441,
           datdoc := DateVal.date 2024, pratica_numero := "P1", codart := "A1",
           desart := "D1", num_articoli := 3 }] := by
  have h := (C2_grouping
    [⟨NumVal.int 441, DateVal.date 2024, Option.some "P1", Option.some "A1",
        Option.some "D1"⟩,
     ⟨NumVal.int 441, DateVal.date 2024, Option.some "P2", Option.none, Option.none⟩,
     ⟨NumVal.int 442, DateVal.date 2023, Option.some "Q1", Option.none, Option.none⟩,
     ⟨NumVal.int 441, DateVal.date 2024, Option.some "P3", Option.none, Option.none⟩,
     ⟨NumVal.int 442, DateVal.date 2023, Option.some "Q2", Option.none, Option.none⟩]
    "441").1
    ⟨NumVal.int 441, DateVal.date 2024, Option.some "P1", Option.some "A1",
        Option.some "D1"⟩
    (by decide)
  exact h.trans (by decide)

lemma firstSeen_congr :
    ∀ (l : List String) (s1 s2 : List String), (∀ x, x ∈ s1 ↔ x ∈ s2) →
      firstSeen s1 l = firstSeen s2 l
  | [], _, _, _ => rfl
  | kk :: ks, s1, s2, h => by
      by_cases hk : kk ∈ s1
      · rw [show firstSeen s1 (kk :: ks) = firstSeen s1 ks by simp [firstSeen, hk],
          show firstSeen s2 (kk :: ks) = firstSeen s2 ks by
            simp [firstSeen, (h kk).mp hk]]
        exact firstSeen_congr ks s1 s2 h
      · have hk2 : kk ∉ s2 := fun hc => hk ((h kk).mpr hc)
        rw [show firstSeen s1 (kk :: ks) = kk :: firstSeen (kk :: s1) ks by
            simp [firstSeen, hk],
          show firstSeen s2 (kk :: ks) = kk :: firstSeen (kk :: s2) ks by
            simp [firstSeen, hk2]]
        exact congrArg _ (firstSeen_congr ks (kk :: s1) (kk :: s2)
          (by intro x; simp [h x]))

lemma foldl_keys_firstSeen :
    ∀ (rows : List OrderRow) (acc : List (String × OrderSummary)),
      (rows.foldl insertRow acc).map Prod.fst =
        acc.map Prod.fst ++ firstSeen (acc.map Prod.fst) (rows.map rowKey)
  | [], acc => by simp [firstSeen]
  | r :: rest, acc => by
      rw [List.foldl_cons, List.map_cons]
      by_cases hm : rowKey r ∈ acc.map Prod.fst
      · rw [foldl_keys_firstSeen rest (insertRow acc r), insertRow_of_mem hm,
          map_fst_bumpAt]
        rw [show firstSeen (acc.map Prod.fst) (rowKey r :: rest.map rowKey)
            = firstSeen (acc.map Prod.fst) (rest.map rowKey) by simp [firstSeen, hm]]
      · rw [foldl_keys_firstSeen rest (insertRow acc r), insertRow_of_not_mem hm,
          List.map_append]
        have h1 : firstSeen (acc.map Prod.fst ++ List.map Prod.fst [(rowKey r, mkSummary r)])
            (rest.map rowKey)
            = firstSeen (rowKey r :: acc.map Prod.fst) (rest.map rowKey) := by
          apply firstSeen_congr
          intro x
          simp [or_comm]
        rw [h1]
        rw [show firstSeen (acc.map Prod.fst) (rowKey r :: rest.map rowKey)
            = rowKey r :: firstSeen (rowKey r :: acc.map Prod.fst) (rest.map rowKey) by
            simp [firstSeen, hm]]
        simp

/-- C5.  The sequence returned by `get_ordini_cliente` lists the groups in
the insertion order of their first-seen rows in the scanned input: the keys
of the output are exactly the first occurrences of the input rows' keys, in
scan order (no re-sort). -/
theorem C5_output_order (rows : List OrderRow) :
    (get_ordini_cliente rows).map summaryKey = firstSeen [] (rows.map rowKey) := by
  unfold get_ordini_cliente
  rw [List.map_map]
  have hentry := foldl_entry_key rows [] (by intro p hp; cases hp)
  have hmapeq : (rows.foldl insertRow []).map (summaryKey ∘ Prod.snd)
      = (rows.foldl insertRow []).map Prod.fst :=
    List.map_congr_left (fun p hp => (hentry p hp).symm)
  rw [hmapeq, foldl_keys_firstSeen rows []]
  simp

/-- C10.  Grouping keys rows by the Python string form of the raw document
number: `str(None) = "None"`, so at most one group carries the key
`"None"`; a summary whose raw number is null has key `"None"` and an empty
formatted number; and an integer row `441` and a string row `"441"` land in
the same single group. -/
theorem C10_string_key_grouping :
    numValStr NumVal.none = "None"
    ∧ (∀ rows : List OrderRow,
        ((get_ordini_cliente rows).filter (fun s => summaryKey s == "None")).length ≤ 1)
    ∧ (∀ (rows : List OrderRow) (s : OrderSummary), s ∈ get_ordini_cliente rows →
        s.numdoc_raw = NumVal.none → summaryKey s = "None" ∧ s.numdoc = "")
    ∧ (∀ r1 r2 : OrderRow, r1.numdoc_raw = NumVal.int 441 →
        r2.numdoc_raw = NumVal.str "441" →
        (get_ordini_cliente [r1, r2]).map (fun s => s.num_articoli) = [2]) := by
  refine ⟨rfl, ?_, ?_, ?_⟩
  · intro rows
    rw [get_ordini_filter rows "None"]
    cases hf : rows.find? (fun r => rowKey r == "None") <;> simp
  · intro rows s hs hnull
    constructor
    · show numValStr s.numdoc_raw = "None"
      rw [hnull]
      rfl
    · unfold get_ordini_cliente at hs
      obtain ⟨p, hp, rfl⟩ := List.mem_map.mp hs
      exact foldl_entry_nullFmt rows [] (by intro q hq; cases hq) p hp hnull
  · intro r1 r2 h1 h2
    obtain ⟨raw1, d1, pa1, ca1, da1⟩ := r1
    obtain ⟨raw2, d2, pa2, ca2, da2⟩ := r2
    have h1' : raw1 = NumVal.int 441 := h1
    have h2' : raw2 = NumVal.str "441" := h2
    subst h1'
    subst h2'
    have e1 : rowKey ⟨NumVal.int 441, d1, pa1, ca1, da1⟩ = "441" := by
      show numValStr (NumVal.int 441) = "441"
      decide
    have e2 : rowKey ⟨NumVal.str "441", d2, pa2, ca2, da2⟩ = "441" := rfl
    simp [get_ordini_cliente, insertRow, e1, e2, bumpCount, mkSummary]

/-- C10 witness: a null-raw row yields the key `"None"` and an empty
formatted number, and the concrete integer/string pair `441` / `"441"`
collapses into one group of two line items. -/
theorem C10_string_key_grouping_witness :
    summaryKey (mkSummary ⟨NumVal.none, DateVal.date 2024, Option.some "P",
        Option.none, Option.none⟩) = "None"
    ∧ (mkSummary ⟨NumVal.none, DateVal.date 2024, Option.some "P",
        Option.none, Option.none⟩).numdoc = ""
    ∧ (get_ordini_cliente
        [⟨NumVal.int 441, DateVal.date 2024, Option.none, Option.none, Option.none⟩,
         ⟨NumVal.str "441", DateVal.none, Option.none, Option.none, Option.none⟩]).map
        (fun s => s.num_articoli) = [2] := by
  have h3 := C10_string_key_grouping.2.2.1
    [⟨NumVal.none, DateVal.date 2024, Option.some "P", Option.none, Option.none⟩]
    (mkSummary ⟨NumVal.none, DateVal.date 2024, Option.some "P",
        Option.none, Option.none⟩)
    (by decide) (by decide)
  have h4 := C10_string_key_grouping.2.2.2
    ⟨NumVal.int 441, DateVal.date 2024, Option.none, Option.none, Option.none⟩
    ⟨NumVal.str "441", DateVal.none, Option.none, Option.none, Option.none⟩
    rfl rfl
  exact ⟨h3.1, h3.2, h4⟩

/-! ## C3: error propagation of the five operations -/

/-- C3, amended claim: `get_clients`, `get_ordini_cliente`,
`get_articoli_ordine` and `fetch_user_by_username` re-raise every backend
error unmodified, while `get_cliente_nome` catches the backend error and
returns `None` instead of re-raising. -/
theorem C3_error_propagation_amended :
    (∀ (e : String) (f : Option String) (m : Bool) (p : Option String) (aw : Bool),
      get_clients_op f m p aw (Except.error e) = Except.error e)
    ∧ (∀ e : String, get_ordini_cliente_op (Except.error e) = Except.error e)
    ∧ (∀ e : String, get_articoli_ordine_op (Except.error e) = Except.error e)
    ∧ (∀ e : String, fetch_user_by_username_op (Except.error e) = Except.error e)
    ∧ (∀ e : String, get_cliente_nome_op (Except.error e) = Option.none) :=
  ⟨fun _ _ _ _ _ => rfl, fun _ => rfl, fun _ => rfl, fun _ => rfl, fun _ => rfl⟩

/-- C3, counterexample to the claim as stated: `get_cliente_nome` does not
re-raise a backend error — it returns `None`, indistinguishable from a
missing client. -/
theorem C3_error_propagation_counterexample :
    get_cliente_nome_op (Except.error "db failure") = Option.none
    ∧ get_cliente_nome_op (Except.error "db failure")
        = get_cliente_nome_op (Except.ok Option.none) :=
  ⟨rfl, rfl⟩

/-! ## C9: timeout coercion is total -/

/-- C9.  `_coerce_timeout` never raises: `None` yields the fallback, a
successful `int` conversion yields the converted value, and both
`TypeError` and `ValueError` yield the fallback; consequently
`get_connection` always applies an integer timeout, `5` by default. -/
theorem C9_coerce_timeout (v t cfg : PyScalar) (fb : Int) :
    (v = PyScalar.none → coerce_timeout v fb = fb)
    ∧ (∀ n : Int, pyIntConv v = Except.ok n → coerce_timeout v fb = n)
    ∧ (∀ e : PyIntErr, pyIntConv v = Except.error e → v ≠ PyScalar.none →
        coerce_timeout v fb = fb)
    ∧ (∃ n : Int, connectionTimeoutValue t cfg = n)
    ∧ (t = PyScalar.none → cfg = PyScalar.none → connectionTimeoutValue t cfg = 5) := by
  refine ⟨?_, ?_, ?_, ⟨connectionTimeoutValue t cfg, rfl⟩, ?_⟩
  · intro h
    subst h
    rfl
  · intro n h
    cases v with
    | none => cases h
    | int m =>
        have hm : m = n := by simpa [pyIntConv] using h
        subst hm
        rfl
    | str s =>
        show (match pyIntConv (PyScalar.str s) with
          | Except.ok n => n
          | Except.error _ => fb) = n
        rw [h]
    | obj => cases h
  · intro e h hne
    cases v with
    | none => exact absurd rfl hne
    | int m => cases h
    | str s =>
        show (match pyIntConv (PyScalar.str s) with
          | Except.ok n => n
          | Except.error _ => fb) = fb
        rw [h]
    | obj => rfl
  · intro ht hcfg
    subst ht
    subst hcfg
    rfl

/-- C9 witness: concrete coercions, including the default path of
`get_connection`. -/
theorem C9_coerce_timeout_witness :
    coerce_timeout PyScalar.none 7 = 7
    ∧ coerce_timeout (PyScalar.str "30") 7 = 30
    ∧ coerce_timeout (PyScalar.str "abc") 7 = 7
    ∧ connectionTimeoutValue PyScalar.none PyScalar.none = 5 := by
  refine ⟨?_, ?_, ?_, ?_⟩
  · exact (C9_coerce_timeout PyScalar.none PyScalar.none PyScalar.none 7).1 rfl
  · exact (C9_coerce_timeout (PyScalar.str "30") PyScalar.none PyScalar.none 7).2.1 30
      (by rfl)
  · exact (C9_coerce_timeout (PyScalar.str "abc") PyScalar.none PyScalar.none 7).2.2.1
      PyIntErr.valueErr (by rfl) (by decide)
  · exact (C9_coerce_timeout PyScalar.none PyScalar.none PyScalar.none 7).2.2.2.2 rfl rfl

/-! ## C7: driver resolution -/

/-- C7.  `_resolve_driver`: the sanitized configured name is returned when
it is non-empty and installed; otherwise the result walks the ordered
preference list (Driver 18, Driver 17, `"SQL Server"`) and errors out when
none is installed; and every successful result is a member of the
installed set — never an unvalidated string. -/
theorem C7_driver_resolution (db_driver : Option String) (drivers : List String) :
    (configuredDriver db_driver ≠ "" →
      configuredDriver db_driver ∈ drivers.map sanitizeDriverName →
      resolveDriver db_driver drivers = Except.ok (configuredDriver db_driver))
    ∧ ((configuredDriver db_driver = "" ∨
        configuredDriver db_driver ∉ drivers.map sanitizeDriverName) →
      resolveDriver db_driver drivers =
        (if "ODBC Driver 18 for SQL Server" ∈ drivers.map sanitizeDriverName then
          Except.ok "ODBC Driver 18 for SQL Server"
        else if "ODBC Driver 17 for SQL Server" ∈ drivers.map sanitizeDriverName then
          Except.ok "ODBC Driver 17 for SQL Server"
        else if "SQL Server" ∈ drivers.map sanitizeDriverName then
          Except.ok "SQL Server"
        else Except.error
          "Nessun driver ODBC per SQL Server trovato. Installa ODBC Driver 18 o 17 per SQL Server."))
    ∧ (∀ d, resolveDriver db_driver drivers = Except.ok d →
        d ∈ drivers.map sanitizeDriverName) := by
  refine ⟨?_, ?_, ?_⟩
  · intro h1 h2
    unfold resolveDriver
    rw [if_pos ⟨h1, h2⟩]
  · intro h
    have hneg : ¬(configuredDriver db_driver ≠ "" ∧
        configuredDriver db_driver ∈ drivers.map sanitizeDriverName) := by
      rcases h with h | h
      · exact fun hc => hc.1 h
      · exact fun hc => h hc.2
    unfold resolveDriver
    rw [if_neg hneg]
    by_cases h18 : "ODBC Driver 18 for SQL Server" ∈ drivers.map sanitizeDriverName
    · have hfind : PREFERRED_DRIVERS.find?
          (fun c => decide (c ∈ drivers.map sanitizeDriverName))
          = Option.some "ODBC Driver 18 for SQL Server" :=
        List.find?_cons_of_pos _ (by simpa using h18)
      rw [hfind, if_pos h18]
    · by_cases h17 : "ODBC Driver 17 for SQL Server" ∈ drivers.map sanitizeDriverName
      · have hfind : PREFERRED_DRIVERS.find?
            (fun c => decide (c ∈ drivers.map sanitizeDriverName))
            = Option.some "ODBC Driver 17 for SQL Server" := by
          show List.find? _ ("ODBC Driver 18 for SQL Server" ::
            "ODBC Driver 17 for SQL Server" :: "SQL Server" :: []) = _
          rw [List.find?_cons_of_neg _ (by simpa using h18)]
          exact List.find?_cons_of_pos _ (by simpa using h17)
        rw [hfind, if_neg h18, if_pos h17]
      · by_cases hss : "SQL Server" ∈ drivers.map sanitizeDriverName
        · have hfind : PREFERRED_DRIVERS.find?
              (fun c => decide (c ∈ drivers.map sanitizeDriverName))
              = Option.some "SQL Server" := by
            show List.find? _ ("ODBC Driver 18 for SQL Server" ::
              "ODBC Driver 17 for SQL Server" :: "SQL Server" :: []) = _
            rw [List.find?_cons_of_neg _ (by simpa using h18),
              List.find?_cons_of_neg _ (by simpa using h17)]
            exact List.find?_cons_of_pos _ (by simpa using hss)
          rw [hfind, if_neg h18, if_neg h17, if_pos hss]
        · have hfind : PREFERRED_DRIVERS.find?
              (fun c => decide (c ∈ drivers.map sanitizeDriverName))
              = Option.none := by
            show List.find? _ ("ODBC Driver 18 for SQL Server" ::
              "ODBC Driver 17 for SQL Server" :: "SQL Server" :: []) = _
            rw [List.find?_cons_of_neg _ (by simpa using h18),
              List.find?_cons_of_neg _ (by simpa using h17),
              List.find?_cons_of_neg _ (by simpa using hss)]
            rfl
          rw [hfind, if_neg h18, if_neg h17, if_neg hss]
  · intro d hd
    unfold resolveDriver at hd
    by_cases hc : configuredDriver db_driver ≠ "" ∧
        configuredDriver db_driver ∈ drivers.map sanitizeDriverName
    · rw [if_pos hc] at hd
      cases hd
      exact hc.2
    · rw [if_neg hc] at hd
      cases hfind : PREFERRED_DRIVERS.find?
          (fun c => decide (c ∈ drivers.map sanitizeDriverName)) with
      | none => rw [hfind] at hd; cases hd
      | some c =>
          rw [hfind] at hd
          cases hd
          have hp := List.find?_some hfind
          simp only [decide_eq_true_eq] at hp
          exact hp

/-- C7 witness: an installed configured driver wins; an uninstalled one
falls back to the first installed preferred driver. -/
theorem C7_driver_resolution_witness :
    resolveDriver (Option.some "ODBC Driver 18 for SQL Server")
        ["ODBC Driver 18 for SQL Server"]
      = Except.ok "ODBC Driver 18 for SQL Server"
    ∧ resolveDriver (Option.some "Bogus") ["ODBC Driver 17 for SQL Server"]
      = Except.ok "ODBC Driver 17 for SQL Server" := by
  constructor
  · exact (C7_driver_resolution (Option.some "ODBC Driver 18 for SQL Server")
      ["ODBC Driver 18 for SQL Server"]).1 (by decide) (by decide)
  · have h := (C7_driver_resolution (Option.some "Bogus")
      ["ODBC Driver 17 for SQL Server"]).2.1 (Or.inr (by decide))
    rw [h]
    rw [if_neg (by decide), if_pos (by decide)]

/-! ## The modelled collation order is total and transitive -/

lemma charListLt_trans :
    ∀ (a b c : List Char), charListLt a b = true → charListLt b c = true →
      charListLt a c = true
  | [], [], _, hab, _ => by simp [charListLt] at hab
  | [], _ :: _, [], _, hbc => by simp [charListLt] at hbc
  | [], _ :: _, _ :: _, _, _ => by simp [charListLt]
  | _ :: _, [], _, hab, _ => by simp [charListLt] at hab
  | _ :: _, _ :: _, [], _, hbc => by simp [charListLt] at hbc
  | x :: xs, y :: ys, z :: zs, hab, hbc => by
      simp only [charListLt, Bool.or_eq_true, Bool.and_eq_true,
        decide_eq_true_eq] at hab hbc ⊢
      rcases hab with hxy | ⟨hxy, hab⟩
      · rcases hbc with hyz | ⟨hyz, _⟩
        · exact Or.inl (lt_trans hxy hyz)
        · exact Or.inl (hyz ▸ hxy)
      · rcases hbc with hyz | ⟨hyz, hbc⟩
        · exact Or.inl (hxy ▸ hyz)
        · exact Or.inr ⟨hxy.trans hyz, charListLt_trans xs ys zs hab hbc⟩

lemma charListLt_asymm :
    ∀ (a b : List Char), charListLt a b = true → charListLt b a = true → False
  | [], [], hab, _ => by simp [charListLt] at hab
  | [], _ :: _, _, hba => by simp [charListLt] at hba
  | _ :: _, [], hab, _ => by simp [charListLt] at hab
  | x :: xs, y :: ys, hab, hba => by
      simp only [charListLt, Bool.or_eq_true, Bool.and_eq_true,
        decide_eq_true_eq] at hab hba
      rcases hab with hxy | ⟨hxy, hab⟩
      · rcases hba with hyx | ⟨hyx, _⟩
        · exact absurd hyx (lt_asymm hxy)
        · exact absurd (hyx ▸ hxy) (lt_irrefl _)
      · rcases hba with hyx | ⟨_, hba⟩
        · exact absurd (hxy ▸ hyx) (lt_irrefl _)
        · exact charListLt_asymm xs ys hab hba

lemma charListLt_connex :
    ∀ (a b : List Char), charListLt a b = false → charListLt b a = false → a = b
  | [], [], _, _ => rfl
  | [], _ :: _, hab, _ => by simp [charListLt] at hab
  | _ :: _, [], _, hba => by simp [charListLt] at hba
  | x :: xs, y :: ys, hab, hba => by
      rcases lt_trichotomy x y with h | h | h
      · rw [show charListLt (x :: xs) (y :: ys) = true by
          simp [charListLt, h]] at hab
        cases hab
      · subst h
        have hab' : charListLt xs ys = false := by
          simpa [charListLt] using hab
        have hba' : charListLt ys xs = false := by
          simpa [charListLt] using hba
        rw [charListLt_connex xs ys hab' hba']
      · rw [show charListLt (y :: ys) (x :: xs) = true by
          simp [charListLt, h]] at hba
        cases hba

lemma collLe_total (a b : String) : collLe a b = true ∨ collLe b a = true := by
  unfold collLe collLt
  cases h : charListLt b.data a.data
  · left
    rfl
  · right
    cases h2 : charListLt a.data b.data
    · rfl
    · exact (charListLt_asymm _ _ h2 h).elim

lemma collLe_trans (a b c : String) :
    collLe a b = true → collLe b c = true → collLe a c = true := by
  unfold collLe collLt
  intro hab hbc
  have hba : charListLt b.data a.data = false := by
    cases h : charListLt b.data a.data
    · rfl
    · rw [h] at hab
      cases hab
  have hcb : charListLt c.data b.data = false := by
    cases h : charListLt c.data b.data
    · rfl
    · rw [h] at hbc
      cases hbc
  suffices hfin : charListLt c.data a.data = false by rw [hfin]; rfl
  cases hca : charListLt c.data a.data
  · rfl
  · exfalso
    cases hablt : charListLt a.data b.data
    · have he : a.data = b.data := charListLt_connex a.data b.data hablt hba
      rw [he] at hca
      rw [hca] at hcb
      cases hcb
    · have hcb' : charListLt c.data b.data = true :=
        charListLt_trans c.data a.data b.data hca hablt
      rw [hcb'] at hcb
      cases hcb

/-! ## LIKE lemmas -/

lemma likeMatch_pct_all (l : List Char) : likeMatch ['%'] l = true := by
  show (l.tails.any fun t => likeMatch [] t) = true
  refine List.any_eq_true.mpr ⟨[], ?_, rfl⟩
  exact (List.mem_tails _ _).mpr List.nil_suffix

lemma sqlLike_all (s : String) : sqlLike "%" s = true := likeMatch_pct_all s.data

lemma likeMatch_pct_cons (p : List Char) (l : List Char)
    (h : likeMatch p l = true) : likeMatch ('%' :: p) l = true := by
  show (l.tails.any fun t => likeMatch p t) = true
  exact List.any_eq_true.mpr ⟨l, (List.mem_tails _ _).mpr (List.suffix_refl l), h⟩

lemma likeNullable_mono (t : String) (o : Option String)
    (h : likeNullable (t ++ "%") o = true) :
    likeNullable ("%" ++ (t ++ "%")) o = true := by
  cases o with
  | none => cases h
  | some s =>
      show sqlLike ("%" ++ (t ++ "%")) s = true
      unfold sqlLike
      rw [String.data_append]
      show likeMatch ('%' :: (t ++ "%").data) s.data = true
      exact likeMatch_pct_cons _ _ h

/-! ## C4: the no-filter client listing -/

lemma clientsWhere_match_all (r : PiaconRow) :
    clientsWhere false "%" "%" r = true ↔ selectableClient r ∧ activeClient r := by
  unfold clientsWhere selectableClient activeClient ragsocNotBlank codiceOk
    likeNullable disattivatoOk
  cases hrag : r.ragsoc with
  | none => simp
  | some rs =>
    cases hcod : r.codice with
    | none => simp
    | some cd =>
      cases hrif : r.rifconto with
      | none => simp
      | some rf =>
        cases hdis : r.disattivato with
        | none => simp [sqlLike_all]
        | some dv => simp [sqlLike_all]

/-- C4, corrected claim.  With `accountPrefix = None`, `searchText = None`
and `includeInactive = false` (and either value of `matchAnywhere`),
`get_clients` returns exactly the active clients that also satisfy the
query's baseline conditions — non-null display name greater than `' '`,
non-null code different from `'0000'`, non-null account reference — sorted
ascending by display name, and no other record. -/
theorem C4_listClients_amended (piacon : List PiaconRow) (aw : Bool) :
    List.Sorted (fun x y : ClientOut => collLe x.ragsoc y.ragsoc = true)
      ((get_clients Option.none false Option.none aw piacon).map id)
    ∧ (∀ r ∈ piacon, selectableClient r → activeClient r →
        clientOut r ∈ get_clients Option.none false Option.none aw piacon)
    ∧ (∀ o ∈ get_clients Option.none false Option.none aw piacon,
        ∃ r, r ∈ piacon ∧ selectableClient r ∧ activeClient r ∧ o = clientOut r) := by
  have hgc : get_clients Option.none false Option.none aw piacon
      = ((piacon.filter (clientsWhere false "%" "%")).insertionSort ragsocLe).map
          clientOut := rfl
  rw [hgc]
  have hperm := List.perm_insertionSort ragsocLe (piacon.filter (clientsWhere false "%" "%"))
  refine ⟨?_, ?_, ?_⟩
  · rw [List.map_id]
    haveI : IsTotal PiaconRow ragsocLe :=
      ⟨fun a b => collLe_total (displayRagsoc a) (displayRagsoc b)⟩
    haveI : IsTrans PiaconRow ragsocLe :=
      ⟨fun a b c => collLe_trans (displayRagsoc a) (displayRagsoc b) (displayRagsoc c)⟩
    have hs := List.sorted_insertionSort ragsocLe (piacon.filter (clientsWhere false "%" "%"))
    exact List.Pairwise.map clientOut (fun a b hab => hab) hs
  · intro r hr hsel hact
    have hw : clientsWhere false "%" "%" r = true :=
      (clientsWhere_match_all r).mpr ⟨hsel, hact⟩
    exact List.mem_map.mpr
      ⟨r, hperm.mem_iff.mpr (List.mem_filter.mpr ⟨hr, hw⟩), rfl⟩
  · intro o ho
    obtain ⟨r, hrs, rfl⟩ := List.mem_map.mp ho
    obtain ⟨hrp, hw⟩ := List.mem_filter.mp (hperm.mem_iff.mp hrs)
    obtain ⟨hsel, hact⟩ := (clientsWhere_match_all r).mp hw
    exact ⟨r, hrp, hsel, hact, rfl⟩

/-- C4, counterexample to the claim as stated: an active client whose code
is the `'0000'` sentinel is excluded by the baseline conditions, so not
every active client is returned. -/
theorem C4_listClients_counterexample :
    activeClient ⟨Option.some "Acme", Option.some "SpA", Option.some "Roma",
      Option.none, Option.none, Option.some "0000", Option.some "C 1",
      Option.some 0⟩
    ∧ get_clients Option.none false Option.none true
        [⟨Option.some "Acme", Option.some "SpA", Option.some "Roma",
          Option.none, Option.none, Option.some "0000", Option.some "C 1",
          Option.some 0⟩] = [] := by
  exact ⟨Or.inr rfl, rfl⟩

/-- C4 witness: a selectable active client is returned. -/
theorem C4_listClients_amended_witness :
    clientOut ⟨Option.some "Acme", Option.some "SpA", Option.some "Roma",
        Option.none, Option.none, Option.some "0001", Option.some "C 1",
        Option.some 0⟩
      ∈ get_clients Option.none false Option.none true
        [⟨Option.some "Acme", Option.some "SpA", Option.some "Roma",
          Option.none, Option.none, Option.some "0001", Option.some "C 1",
          Option.some 0⟩] := by
  refine (C4_listClients_amended
    [⟨Option.some "Acme", Option.some "SpA", Option.some "Roma",
      Option.none, Option.none, Option.some "0001", Option.some "C 1",
      Option.some 0⟩] true).2.1 _ (List.mem_singleton.mpr rfl) ?_ ?_
  · exact ⟨⟨"Acme", rfl, by decide⟩, ⟨"0001", rfl, by decide⟩, by decide⟩
  · exact Or.inr rfl

/-! ## C6: prefix matches are a subset of match-anywhere matches -/

lemma clientsWhere_mono (m : Bool) (rif : String) (t : String) (r : PiaconRow)
    (h : clientsWhere m rif (t ++ "%") r = true) :
    clientsWhere m rif ("%" ++ (t ++ "%")) r = true := by
  unfold clientsWhere at h ⊢
  simp only [Bool.and_eq_true, Bool.or_eq_true] at h ⊢
  obtain ⟨⟨⟨⟨hA, hB⟩, hC⟩, hD⟩, hE⟩ := h
  refine ⟨⟨⟨⟨hA, hB⟩, hC⟩, hD⟩, ?_⟩
  rcases hE with ((((e1 | e2) | e3) | e4) | e5)
  · exact Or.inl (Or.inl (Or.inl (Or.inl (likeNullable_mono t _ e1))))
  · exact Or.inl (Or.inl (Or.inl (Or.inr (likeNullable_mono t _ e2))))
  · exact Or.inl (Or.inl (Or.inr (likeNullable_mono t _ e3)))
  · exact Or.inl (Or.inr (likeNullable_mono t _ e4))
  · exact Or.inr (likeNullable_mono t _ e5)

/-- C6.  With all other arguments equal, every record returned by
`get_clients` with `match_anywhere = false` (pattern `text%`) is also
returned with `match_anywhere = true` (pattern `%text%`). -/
theorem C6_match_anywhere_superset (filtro : Option String) (mostra : Bool)
    (text : String) (piacon : List PiaconRow) (o : ClientOut) :
    o ∈ get_clients filtro mostra (Option.some text) false piacon →
    o ∈ get_clients filtro mostra (Option.some text) true piacon := by
  intro ho
  have hgc1 : get_clients filtro mostra (Option.some text) false piacon
      = ((piacon.filter (clientsWhere mostra (rifcontoLike filtro)
          (patternLike (Option.some text) false))).insertionSort ragsocLe).map
          clientOut := rfl
  have hgc2 : get_clients filtro mostra (Option.some text) true piacon
      = ((piacon.filter (clientsWhere mostra (rifcontoLike filtro)
          (patternLike (Option.some text) true))).insertionSort ragsocLe).map
          clientOut := rfl
  rw [hgc1] at ho
  rw [hgc2]
  by_cases hraw : pyStrip text = ""
  · have hpp : patternLike (Option.some text) false
        = patternLike (Option.some text) true := by
      simp [patternLike, hraw]
    rw [hpp] at ho
    exact ho
  · have hpf : patternLike (Option.some text) false = pyStrip text ++ "%" := by
      simp [patternLike, hraw]
    have hpt : patternLike (Option.some text) true
        = "%" ++ (pyStrip text ++ "%") := by
      simp [patternLike, hraw, String.append_assoc]
    rw [hpf] at ho
    rw [hpt]
    obtain ⟨r, hrs, rfl⟩ := List.mem_map.mp ho
    have hperm1 := List.perm_insertionSort ragsocLe
      (piacon.filter (clientsWhere mostra (rifcontoLike filtro) (pyStrip text ++ "%")))
    obtain ⟨hrp, hw⟩ := List.mem_filter.mp (hperm1.mem_iff.mp hrs)
    have hw2 := clientsWhere_mono mostra (rifcontoLike filtro) (pyStrip text) r hw
    have hperm2 := List.perm_insertionSort ragsocLe
      (piacon.filter (clientsWhere mostra (rifcontoLike filtro)
        ("%" ++ (pyStrip text ++ "%"))))
    exact List.mem_map.mpr
      ⟨r, hperm2.mem_iff.mpr (List.mem_filter.mpr ⟨hrp, hw2⟩), rfl⟩

/-- C6 witness: a record whose name starts with `"Ro"` is found by the
prefix search and, via the theorem, by the match-anywhere search. -/
theorem C6_match_anywhere_superset_witness :
    clientOut ⟨Option.some "Rossi", Option.none, Option.some "Roma",
        Option.none, Option.none, Option.some "0001", Option.some "C 1",
        Option.none⟩
      ∈ get_clients Option.none false (Option.some "Ro") true
        [⟨Option.some "Rossi", Option.none, Option.some "Roma",
          Option.none, Option.none, Option.some "0001", Option.some "C 1",
          Option.none⟩] :=
  C6_match_anywhere_superset Option.none false "Ro"
    [⟨Option.some "Rossi", Option.none, Option.some "Roma",
      Option.none, Option.none, Option.some "0001", Option.some "C 1",
      Option.none⟩]
    (clientOut ⟨Option.some "Rossi", Option.none, Option.some "Roma",
      Option.none, Option.none, Option.some "0001", Option.some "C 1",
      Option.none⟩)
    (by decide)

/-! ## C8: the SQL text is independent of the caller-supplied values -/

set_option maxRecDepth 8192 in
/-- C8.  The query text built by `get_clients` is identical for any two
calls that differ only in `filtro_mastro`, `pattern_ricerca` or
`match_anywhere` (it varies only with `mostra_disattivati`); the
caller-supplied values travel only in the bound-parameter list (the
`Rifconto` pattern once, the search pattern five times); and the text
contains exactly as many `?` placeholders as there are parameters. -/
theorem C8_bound_parameters :
    (∀ (m : Bool) (f1 f2 p1 p2 : Option String) (aw1 aw2 : Bool),
      (get_clients_query f1 m p1 aw1).1 = (get_clients_query f2 m p2 aw2).1)
    ∧ (∀ (m : Bool) (f p : Option String) (aw : Bool),
      (get_clients_query f m p aw).2
        = rifcontoLike f :: List.replicate 5 (patternLike p aw))
    ∧ (∀ (m : Bool) (f p : Option String) (aw : Bool),
      (get_clients_query f m p aw).1.data.count '?' = 6
        ∧ (get_clients_query f m p aw).2.length = 6) := by
  refine ⟨?_, ?_, ?_⟩
  · intro m f1 f2 p1 p2 aw1 aw2
    cases m <;> rfl
  · intro m f p aw
    rfl
  · intro m f p aw
    refine ⟨?_, by simp [get_clients_query]⟩
    cases m
    · show (clients_base_query ++ disattivato_clause ++ search_clause
        ++ order_clause).data.count '?' = 6
      decide
    · show (clients_base_query ++ "" ++ search_clause
        ++ order_clause).data.count '?' = 6
      decide

end Ippolito
